import Mathlib

/-!
Verification development for the idb-store repository: a shallow embedding of
the connection manager (class DB) and the collection accessor (class Store /
StoreRepository) together with a model of the boundary collaborator, the
embedded storage engine (the idb library wrapping IndexedDB), as described
in section 6 of the design note.  Keys are modelled as naturals with their
standard order; an object store is a key-sorted association list; promises
are modelled by explicit outcome values, with a synchronous throw kept
distinct from a returned rejected promise.
-/

namespace IdbModel

/-- IndexedDB keys, modelled as naturals with their standard order. -/
abbrev Key := Nat

/-- A JavaScript error value carrying its message string. -/
structure JSErr where
  message : String
deriving DecidableEq, Repr

/-- Outcome of invoking a wrapper method: a synchronous throw, a returned
promise that rejects, a returned promise that resolves with a value, or a
returned promise that is still pending. -/
inductive JSResult (α : Type) where
  | thrown (e : JSErr)
  | rejected (e : JSErr)
  | resolved (v : α)
  | pending
deriving DecidableEq, Repr

/-- Contents of one object store: records as a key-value association list,
kept ascending by key by the engine. -/
abbrev StoreData (α : Type) := List (Key × α)

/-- The engine invariant: records are strictly ascending by key. -/
def sortedByKey {α : Type} (data : StoreData α) : Prop :=
  List.Pairwise (fun a b => a.1 < b.1) data

instance {α : Type} (data : StoreData α) : Decidable (sortedByKey data) := by
  unfold sortedByKey
  infer_instance

/-- Engine primitive objectStore.put: insert or unconditionally overwrite the
record at the given key, keeping the list ascending by key. -/
def put {α : Type} (k : Key) (v : α) : StoreData α → StoreData α
  | [] => [(k, v)]
  | e :: rest =>
    if k < e.1 then (k, v) :: e :: rest
    else if k = e.1 then (k, v) :: rest
    else e :: put k v rest

/-- Engine primitive objectStore.get: the value stored at an exact key, or a
not-found result. -/
def getVal {α : Type} (k : Key) : StoreData α → Option α
  | [] => none
  | e :: rest => if k = e.1 then some e.2 else getVal k rest

/-- Engine primitive objectStore.delete for an exact key. -/
def deleteKey {α : Type} (k : Key) (data : StoreData α) : StoreData α :=
  data.filter (fun e => !(e.1 == k))

/-- A key range: optional lower and upper bounds with open/closed flags. -/
structure KeyRange where
  lower : Option Key
  upper : Option Key
  lowerOpen : Bool
  upperOpen : Bool
deriving DecidableEq, Repr

/-- Membership of a key in a key range. -/
def KeyRange.memB (r : KeyRange) (k : Key) : Bool :=
  (match r.lower with
   | none => true
   | some lo => if r.lowerOpen then decide (lo < k) else decide (lo ≤ k))
  &&
  (match r.upper with
   | none => true
   | some hi => if r.upperOpen then decide (k < hi) else decide (k ≤ hi))

/-- Membership of a key in an optional query range; no range matches all. -/
def inQuery (q : Option KeyRange) (k : Key) : Bool :=
  match q with
  | none => true
  | some r => r.memB k

/-- Records of a store whose key falls in the optional query range. -/
def rangeFilter {α : Type} (q : Option KeyRange) (data : StoreData α) : StoreData α :=
  data.filter (fun e => inQuery q e.1)

/-- Truncation of a result list at an optional limit. -/
def takeLimit {β : Type} (l : Option Nat) (xs : List β) : List β :=
  match l with
  | none => xs
  | some n => xs.take n

/-- Engine behaviour of getAll restricted to entries: records in the range,
in ascending key order, truncated at the optional limit. -/
def engineGetAllEntries {α : Type} (q : Option KeyRange) (l : Option Nat)
    (data : StoreData α) : StoreData α :=
  takeLimit l (rangeFilter q data)

/-- Engine behaviour of objectStore.getAll: the values of the selected
entries. -/
def engineGetAll {α : Type} (q : Option KeyRange) (l : Option Nat)
    (data : StoreData α) : List α :=
  (engineGetAllEntries q l data).map Prod.snd

/-- Engine behaviour of objectStore.count: number of records in the range. -/
def engineCount {α : Type} (q : Option KeyRange) (data : StoreData α) : Nat :=
  (rangeFilter q data).length

/-- The cursor callback loop of getAllKeys: a key cursor opened over the whole
store visits every record in ascending key order, and the callback pushes each
key and continues. -/
def cursorCollect {α : Type} : List Key → StoreData α → List Key
  | acc, [] => acc
  | acc, e :: rest => cursorCollect (acc ++ [e.1]) rest

/-- Generic property lookup on an association list keyed by strings. -/
def assocGet {β : Type} (n : String) : List (String × β) → Option β
  | [] => none
  | e :: rest => if e.1 = n then some e.2 else assocGet n rest

/-- Generic property assignment on an association list keyed by strings:
overwrite the existing binding or append a new one. -/
def assocSet {β : Type} (n : String) (b : β) : List (String × β) → List (String × β)
  | [] => [(n, b)]
  | e :: rest => if e.1 = n then (n, b) :: rest else e :: assocSet n b rest

end IdbModel

namespace IdbStore

open IdbModel

/-! Embedding of src/idb-store.js: class Store (a collection accessor bound to
one storeKey, operating through the shared connection) and class DB (the
connection manager). -/

/-- A resolved connection: the named object stores of the open database. -/
structure IdbDatabase (α : Type) where
  stores : List (String × StoreData α)
deriving DecidableEq, Repr

/-- Names of the object stores of the open database (db.objectStoreNames). -/
def IdbDatabase.objectStoreNames {α : Type} (db : IdbDatabase α) : List String :=
  db.stores.map Prod.fst

/-- Contents of the named object store (an absent name reads as empty). -/
def IdbDatabase.storeData {α : Type} (db : IdbDatabase α) (n : String) : StoreData α :=
  (assocGet n db.stores).getD []

/-- The database with the named object store replaced by new contents. -/
def IdbDatabase.withStoreData {α : Type} (db : IdbDatabase α) (n : String)
    (d : StoreData α) : IdbDatabase α :=
  ⟨assocSet n d db.stores⟩

/-- Class Store of src/idb-store.js: the accessor binding holds only the store
key; the connection is shared through the manager. -/
structure Store where
  storeKey : String
deriving DecidableEq, Repr

/-- Store.get (src/idb-store.js lines 25-30): open a read transaction on the
bound store and read the record at the key. -/
def Store.get {α : Type} (s : Store) (db : IdbDatabase α) (k : Key) : Option α :=
  getVal k (db.storeData s.storeKey)

/-- Store.set (src/idb-store.js lines 39-45): open a readwrite transaction on
the bound store and put the value at the key, overwriting unconditionally. -/
def Store.set {α : Type} (s : Store) (db : IdbDatabase α) (v : α) (k : Key) :
    IdbDatabase α :=
  db.withStoreData s.storeKey (put k v (db.storeData s.storeKey))

/-- Store.delete (src/idb-store.js lines 53-59): remove the record at the key
in a readwrite transaction. -/
def Store.deleteOp {α : Type} (s : Store) (db : IdbDatabase α) (k : Key) :
    IdbDatabase α :=
  db.withStoreData s.storeKey (deleteKey k (db.storeData s.storeKey))

/-- Store.clear (src/idb-store.js lines 66-72): remove every record of the
bound store. -/
def Store.clearOp {α : Type} (s : Store) (db : IdbDatabase α) : IdbDatabase α :=
  db.withStoreData s.storeKey []

/-- Store.getAllKeys (src/idb-store.js lines 81-95): the source opens a key
cursor over the whole store with no range argument and pushes every visited
key; the query and cnt parameters are received but never passed to the
engine, so they do not influence the result. -/
def Store.getAllKeys {α : Type} (s : Store) (db : IdbDatabase α)
    (query : Option KeyRange) (cnt : Option Nat) : List Key :=
  cursorCollect [] (db.storeData s.storeKey)

/-- Store.getAll (src/idb-store.js lines 105-112): forwards query and cnt to
the engine primitive store.getAll. -/
def Store.getAll {α : Type} (s : Store) (db : IdbDatabase α)
    (query : Option KeyRange) (cnt : Option Nat) : List α :=
  engineGetAll query cnt (db.storeData s.storeKey)

/-- Store.count (src/idb-store.js lines 121-126): forwards query to the
engine primitive store.count. -/
def Store.countOp {α : Type} (s : Store) (db : IdbDatabase α)
    (query : Option KeyRange) : Nat :=
  engineCount query (db.storeData s.storeKey)

/-! Settlement model for claim C4.  A single-operation transaction run has an
outcome for the request made inside it and an outcome for the transaction
itself (committed or aborted).  The promise an accessor method returns is
characterised by its outcome and by when it settles: a method whose returned
promise is tx.complete or a then-chain of tx.complete settles only when the
transaction settles; a method that returns the bare request promise settles
as soon as the request completes, independently of the transaction. -/

/-- When an accessor promise settles relative to its transaction. -/
inductive SettleTime where
  | atRequest
  | atTxSettle
deriving DecidableEq, Repr

/-- Outcomes of one single-operation transaction: the request result and the
transaction result (ok means committed, error means aborted). -/
structure TxRun (α : Type) where
  requestResult : Except JSErr α
  txResult : Except JSErr Unit
deriving Repr

/-- The promise returned by an accessor method: its outcome and when it
settles. -/
structure AccessorPromise (α : Type) where
  outcome : Except JSErr α
  settleTime : SettleTime
deriving Repr

/-- Store.get returns the bare request promise
(return db.transaction(...).objectStore(...).get(key), lines 25-30): it
carries the request result and settles when the request completes. -/
def Store.getPromise {α : Type} (run : TxRun α) : AccessorPromise α :=
  { outcome := run.requestResult, settleTime := SettleTime.atRequest }

/-- Store.set returns tx.complete (lines 39-45): it carries the transaction
result and settles when the transaction settles. -/
def Store.setPromise (run : TxRun Unit) : AccessorPromise Unit :=
  { outcome := run.txResult, settleTime := SettleTime.atTxSettle }

/-- Store.delete returns tx.complete (lines 53-59). -/
def Store.deletePromise (run : TxRun Unit) : AccessorPromise Unit :=
  { outcome := run.txResult, settleTime := SettleTime.atTxSettle }

/-- Store.clear returns tx.complete (lines 66-72). -/
def Store.clearPromise (run : TxRun Unit) : AccessorPromise Unit :=
  { outcome := run.txResult, settleTime := SettleTime.atTxSettle }

/-- Store.getAllKeys returns tx.complete.then of the collected keys
(lines 81-95). -/
def Store.getAllKeysPromise {α : Type} (keys : List α) (run : TxRun Unit) :
    AccessorPromise (List α) :=
  { outcome := Except.map (fun _ => keys) run.txResult
    settleTime := SettleTime.atTxSettle }

/-- Store.getAll returns tx.complete.then of the engine result
(lines 105-112). -/
def Store.getAllPromise {α : Type} (keys : List α) (run : TxRun Unit) :
    AccessorPromise (List α) :=
  { outcome := Except.map (fun _ => keys) run.txResult
    settleTime := SettleTime.atTxSettle }

/-- Store.count returns the bare request promise (lines 121-126). -/
def Store.countPromise (run : TxRun Nat) : AccessorPromise Nat :=
  { outcome := run.requestResult, settleTime := SettleTime.atRequest }

/-! Embedding of class DB of src/idb-store.js. -/

/-- The value DB.open assigns to the per-store property: a Store accessor
bound to that store name. -/
structure StoreProp where
  storeKey : String
deriving DecidableEq, Repr

/-- The property-attachment loop of DB.open (src/idb-store.js lines 164-173):
for each name of db.objectStoreNames in order, assign this[name] a Store
bound to that name. -/
def attachStores : List String → List (String × StoreProp) → List (String × StoreProp)
  | [], props => props
  | n :: rest, props => attachStores rest (assocSet n ⟨n⟩ props)

/-- The named accessor properties a DB instance carries after the connection
promise made by DB.open resolves. -/
def openProps {α : Type} (db : IdbDatabase α) : List (String × StoreProp) :=
  attachStores db.objectStoreNames []

/-! Embedding of DB.createDatabase (src/idb-store.js lines 183-198). -/

/-- Creation options of an object store (schema.create.options). -/
structure StoreOptions where
  autoIncrement : Bool
deriving DecidableEq, Repr

/-- A secondary index descriptor (schema.index). -/
structure IndexDef where
  name : String
  property : String
  unique : Bool
deriving DecidableEq, Repr

/-- The create part of one schema entry (schema.create). -/
structure SchemaCreate where
  name : String
  options : StoreOptions
deriving DecidableEq, Repr

/-- One schema entry: creation descriptor and optional index descriptor. -/
structure SchemaEntry where
  create : SchemaCreate
  index : Option IndexDef
deriving DecidableEq, Repr

/-- An object store as it exists inside the upgraded database: its creation
options, its secondary indexes and its data. -/
structure CreatedStore (α : Type) where
  name : String
  options : StoreOptions
  indexes : List IndexDef
  data : StoreData α
deriving DecidableEq, Repr

/-- The engine test upgradeDB.objectStoreNames.contains. -/
def containsStore {α : Type} (db : List (CreatedStore α)) (n : String) : Bool :=
  db.any (fun st => st.name == n)

/-- One iteration of the upgrade callback of DB.createDatabase: if the
database does not contain the entry's store, create it with the entry's
options and, when the entry has one, its index; otherwise leave the database
unchanged. -/
def upgradeStep {α : Type} (db : List (CreatedStore α)) (sc : SchemaEntry) :
    List (CreatedStore α) :=
  if containsStore db sc.create.name then db
  else
    db ++ [{ name := sc.create.name
             options := sc.create.options
             indexes := match sc.index with
                        | some idx => [idx]
                        | none => []
             data := [] }]

/-- Result of DB.createDatabase: the upgraded stores and whether the
connection it opened was closed before the promise resolved. -/
structure CreateDatabaseResult (α : Type) where
  stores : List (CreatedStore α)
  connectionClosed : Bool
deriving DecidableEq, Repr

/-- DB.createDatabase (src/idb-store.js lines 183-198): run the upgrade
callback over the schema entries in order against the existing stores, then
close the connection (.then of db.close). -/
def createDatabase {α : Type} (schemas : List SchemaEntry)
    (existing : List (CreatedStore α)) : CreateDatabaseResult α :=
  { stores := schemas.foldl upgradeStep existing
    connectionClosed := true }

/-! Embedding of DB.hasSupport (src/idb-store.js lines 217-223). -/

/-- The host environment as the probe sees it: whether the global object
window exists at all, and whether indexedDB is a property of it. -/
structure HostEnv where
  hasWindowGlobal : Bool
  indexedDBInWindow : Bool
deriving DecidableEq, Repr

/-- Result of the probe: a synchronous throw or a returned boolean. -/
inductive ProbeResult where
  | thrown (msg : String)
  | returned (b : Bool)
deriving DecidableEq, Repr

/-- One run of the probe: its result and the console warnings it emitted. -/
structure ProbeRun where
  result : ProbeResult
  warnings : List String
deriving DecidableEq, Repr

/-- The message of the ReferenceError raised by resolving the identifier
window in a host that has no window global. -/
def windowRefError : String := "ReferenceError: window is not defined"

/-- The non-fatal diagnostic the probe emits when window lacks indexedDB. -/
def noSupportWarning : String := "This environment does not support IndexedDB"

/-- DB.hasSupport: evaluating the expression indexedDB in window first
resolves the global identifier window, which in a host without a window
global throws a ReferenceError; otherwise, when window lacks indexedDB the
probe warns and returns false, and returns true in every other case. -/
def hasSupport (env : HostEnv) : ProbeRun :=
  if !env.hasWindowGlobal then
    { result := ProbeResult.thrown windowRefError
      warnings := [] }
  else if !env.indexedDBInWindow then
    { result := ProbeResult.returned false
      warnings := [noSupportWarning] }
  else
    { result := ProbeResult.returned true, warnings := [] }

/-! Embedding of the lifecycle event subscriptions of class DB
(src/idb-store.js lines 231-287): onversionchange, onclose, onerror and
onabort each create a fresh promise and install its resolver as the single
corresponding handler property of the underlying connection, overwriting any
handler a previous call installed. -/

/-- The four lifecycle event kinds. -/
inductive EventKind where
  | versionchange
  | close
  | error
  | abort
deriving DecidableEq, Repr

/-- Subscription state of one connection: per event kind, the single handler
property of the underlying connection holds at most the resolver of one
promise (identified by a number); nextId numbers the promises created so far;
settled lists the promises that have been resolved by a firing event. -/
structure EventState where
  handler : EventKind → Option Nat
  nextId : Nat
  settled : List Nat

/-- The state of a freshly opened connection: no handlers, no promises. -/
def EventState.initial : EventState :=
  { handler := fun _ => none, nextId := 0, settled := [] }

/-- One call of a subscription method: create a fresh promise and assign its
resolver to the handler property for that event kind, replacing whatever
handler was installed there before. -/
def subscribeEvent (k : EventKind) (st : EventState) : EventState × Nat :=
  ({ handler := fun k0 => if k0 = k then some st.nextId else st.handler k0
     nextId := st.nextId + 1
     settled := st.settled }, st.nextId)

/-- The underlying engine fires an event of the given kind: the installed
handler, if any, runs and resolves its promise; the handler property itself
is left in place. -/
def fireEvent (k : EventKind) (st : EventState) : EventState :=
  match st.handler k with
  | some id => { st with settled := id :: st.settled }
  | none => st

/-- A sequence of event firings applied in order. -/
def applyFires (fs : List EventKind) (st : EventState) : EventState :=
  fs.foldl (fun s k => fireEvent k s) st

/-- Well-formedness of a subscription state: every promise mentioned was
actually created, i.e. its number is below nextId. -/
def EventState.wf (st : EventState) : Prop :=
  (∀ id ∈ st.settled, id < st.nextId) ∧
  (∀ k id, st.handler k = some id → id < st.nextId)

end IdbStore

namespace StoreRepositoryFile

open IdbModel

/-! Embedding of src/store-repository.js: class DB (the connection manager
gated on this.dbPromise) and class StoreRepository (the accessor that
re-enters open on every call). -/

/-- The promise idb.open returns, identified by a serial number and carrying
the connection it resolves to. -/
structure ConnPromise where
  id : Nat
  connName : String
  connVersion : Nat
  storeNames : List String
deriving DecidableEq, Repr

/-- The engine world: how many underlying connections have been opened so
far, and the store names of the database on disk. -/
structure IdbWorld where
  opensPerformed : Nat
  diskStoreNames : List String
deriving DecidableEq, Repr

/-- The external idb.open primitive: every call establishes one fresh
underlying connection and returns a new promise for it. -/
def idbOpen (dbName : String) (version : Nat) (w : IdbWorld) :
    ConnPromise × IdbWorld :=
  (⟨w.opensPerformed, dbName, version, w.diskStoreNames⟩,
   { w with opensPerformed := w.opensPerformed + 1 })

/-- Class DB of src/store-repository.js: name, version and the shared
dbPromise field, which is null (none) before open and after close. -/
structure DB where
  dbName : String
  dbVersion : Nat
  dbPromise : Option ConnPromise
deriving DecidableEq, Repr

/-- The DB constructor (src/store-repository.js lines 171-175): stores name
and version and sets this.dbPromise to null. -/
def DB.new (dbName : String) (version : Nat) : DB :=
  { dbName := dbName, dbVersion := version, dbPromise := none }

/-- DB.open (src/store-repository.js lines 184-187): unconditionally call
idb.open, assign the new promise to this.dbPromise, and return it. -/
def DB.open (db : DB) (w : IdbWorld) : DB × ConnPromise × IdbWorld :=
  let r := idbOpen db.dbName db.dbVersion w
  ({ db with dbPromise := some r.1 }, r.1, r.2)

/-- Class StoreRepository (src/store-repository.js lines 9-17): the accessor
binding of a store key to the owning connection manager. -/
structure StoreRepository where
  storeKey : String
deriving DecidableEq, Repr

/-- StoreRepository.getConnection (lines 15-17): return
this.idbConnection.open(), re-entering DB.open on every accessor call. -/
def StoreRepository.getConnection (repo : StoreRepository) (db : DB)
    (w : IdbWorld) : DB × ConnPromise × IdbWorld :=
  DB.open db w

/-- The connectionError helper (src/store-repository.js lines 400-402): a
promise rejected with the distinct connection-not-open error. -/
def connectionError {α : Type} : JSResult α :=
  JSResult.rejected { message := "Connection not open." }

/-- The getter DB.name (lines 320-327): guarded on dbPromise; when open it
resolves with the name of the underlying connection. -/
def DB.name (db : DB) : JSResult String :=
  match db.dbPromise with
  | none => connectionError
  | some c => JSResult.resolved c.connName

/-- The getter DB.version (lines 334-341): guarded on dbPromise. -/
def DB.version (db : DB) : JSResult Nat :=
  match db.dbPromise with
  | none => connectionError
  | some c => JSResult.resolved c.connVersion

/-- The getter DB.objectStoreNames (lines 348-360): guarded on dbPromise;
when open it copies the store names into a buffer and resolves with it. -/
def DB.objectStoreNames (db : DB) : JSResult (List String) :=
  match db.dbPromise with
  | none => connectionError
  | some c => JSResult.resolved c.storeNames

/-- DB.onversionchange (lines 245-256): guarded on dbPromise; when open it
returns a promise that stays pending until the event fires. -/
def DB.onversionchange (db : DB) : JSResult JSErr :=
  match db.dbPromise with
  | none => connectionError
  | some _ => JSResult.pending

/-- DB.onclose (lines 264-275): guarded on dbPromise. -/
def DB.onclose (db : DB) : JSResult JSErr :=
  match db.dbPromise with
  | none => connectionError
  | some _ => JSResult.pending

/-- DB.onerror (lines 283-294): guarded on dbPromise. -/
def DB.onerror (db : DB) : JSResult JSErr :=
  match db.dbPromise with
  | none => connectionError
  | some _ => JSResult.pending

/-- DB.onabort (lines 302-313): guarded on dbPromise. -/
def DB.onabort (db : DB) : JSResult JSErr :=
  match db.dbPromise with
  | none => connectionError
  | some _ => JSResult.pending

/-- DB.close (lines 367-378): guarded on dbPromise; when open it closes the
underlying connection, then nulls out this.dbPromise, invalidating the
handle, and resolves with undefined. -/
def DB.close (db : DB) : JSResult Unit × DB :=
  match db.dbPromise with
  | none => (connectionError, db)
  | some _ => (JSResult.resolved (), { db with dbPromise := none })

/-- Transaction modes. -/
inductive TxMode where
  | readonly
  | readwrite
deriving DecidableEq, Repr

/-- A transaction object scoped to the given stores. -/
structure Tx where
  storeNames : List String
  mode : TxMode
deriving DecidableEq, Repr

/-- DB.transaction (lines 387-391): unlike every other method of the class it
has no dbPromise guard; it evaluates this.dbPromise.then directly, and when
dbPromise is null the member access .then on null throws a TypeError
synchronously instead of returning a rejected promise. -/
def DB.transaction (db : DB) (storeNames : List String) (mode : TxMode) :
    JSResult Tx :=
  match db.dbPromise with
  | none =>
    JSResult.thrown { message := "TypeError: cannot read property then of null" }
  | some _ => JSResult.resolved { storeNames := storeNames, mode := mode }

/-- StoreRepository.get (lines 25-34) has no catch clause: a failure raised
while acquiring the connection or inside the transaction propagates to the
returned promise unchanged, with no method-specific message added. -/
def StoreRepository.getOutcome {α : Type} (r : Except JSErr α) : Except JSErr α :=
  r

end StoreRepositoryFile

namespace Part001

open IdbModel

/-! Embedding of the error handling of the Store revisions kept in
src/unnamed/part_001: every accessor method ends in a catch clause that
prepends a method-specific text to the message of the underlying error and
re-rejects it (second revision, lines 231-377, mutates the original error in
place; the first revision, lines 28-200, rebuilds the error around the same
message).  Each definition maps the outcome of the method body to the
outcome of the returned promise. -/

/-- The catch clause shared by all accessors: prepend the given text to the
message of the underlying error, preserving the cause. -/
def wrapErr (pfx : String) (e : JSErr) : JSErr :=
  { message := pfx ++ e.message }

/-- The message text prepended by the catch clause of Store.get. -/
def getPfx : String := "Failed to get store record: "

/-- The message text prepended by the catch clause of Store.set. -/
def setPfx : String := "Failed to set store record: "

/-- The message text prepended by the catch clause of Store.delete. -/
def deletePfx : String := "Failed to remove store record: "

/-- The message text prepended by the catch clause of Store.clear. -/
def clearPfx : String := "Failed to clear store records: "

/-- The message text prepended by the catch clause of Store.getAllKeys. -/
def getAllKeysPfx : String := "Failed to get store keys: "

/-- The message text prepended by the catch clause of Store.getAll. -/
def getAllPfx : String := "Failed to get all store records: "

/-- The message text prepended by the catch clause of Store.count. -/
def countPfx : String := "Failed to get store count: "

/-- The seven method texts in method order. -/
def methodPfxs : List String :=
  [getPfx, setPfx, deletePfx, clearPfx, getAllKeysPfx, getAllPfx, countPfx]

/-- Store.get of part_001 (lines 231-243): pass a success through, wrap a
failure with the get text. -/
def Store.getOutcome {α : Type} (r : Except JSErr α) : Except JSErr α :=
  match r with
  | Except.ok v => Except.ok v
  | Except.error e => Except.error (wrapErr getPfx e)

/-- Store.set of part_001 (lines 252-265). -/
def Store.setOutcome {α : Type} (r : Except JSErr α) : Except JSErr α :=
  match r with
  | Except.ok v => Except.ok v
  | Except.error e => Except.error (wrapErr setPfx e)

/-- Store.delete of part_001 (lines 273-285). -/
def Store.deleteOutcome {α : Type} (r : Except JSErr α) : Except JSErr α :=
  match r with
  | Except.ok v => Except.ok v
  | Except.error e => Except.error (wrapErr deletePfx e)

/-- Store.clear of part_001 (lines 292-304). -/
def Store.clearOutcome {α : Type} (r : Except JSErr α) : Except JSErr α :=
  match r with
  | Except.ok v => Except.ok v
  | Except.error e => Except.error (wrapErr clearPfx e)

/-- Store.getAllKeys of part_001 (lines 313-332). -/
def Store.getAllKeysOutcome {α : Type} (r : Except JSErr α) : Except JSErr α :=
  match r with
  | Except.ok v => Except.ok v
  | Except.error e => Except.error (wrapErr getAllKeysPfx e)

/-- Store.getAll of part_001 (lines 343-356). -/
def Store.getAllOutcome {α : Type} (r : Except JSErr α) : Except JSErr α :=
  match r with
  | Except.ok v => Except.ok v
  | Except.error e => Except.error (wrapErr getAllPfx e)

/-- Store.count of part_001 (lines 365-377). -/
def Store.countOutcome {α : Type} (r : Except JSErr α) : Except JSErr α :=
  match r with
  | Except.ok v => Except.ok v
  | Except.error e => Except.error (wrapErr countPfx e)

end Part001

namespace Demo

open IdbModel IdbStore StoreRepositoryFile

/-! Concrete inputs used by the witness and counterexample theorems. -/

/-- A store name. -/
def itemsName : String := "items"

/-- Another store name. -/
def usersName : String := "users"

/-- A database name. -/
def myDBName : String := "myDB"

/-- An accessor bound to the items store. -/
def itemsStore : Store := { storeKey := itemsName }

/-- An open database with one store holding keys 1, 2, 3. -/
def demoDb : IdbDatabase Nat :=
  { stores := [(itemsName, [(1, 10), (2, 20), (3, 30)])] }

/-- The key range of all keys at least 2. -/
def geTwo : KeyRange :=
  { lower := some 2, upper := none, lowerOpen := false, upperOpen := false }

/-- An engine failure carried by an aborted transaction. -/
def abortErr : JSErr := { message := "transaction aborted" }

/-- An arbitrary underlying failure. -/
def boomErr : JSErr := { message := "boom" }

/-- A fresh engine world with the items store on disk. -/
def demoWorld : IdbWorld := { opensPerformed := 0, diskStoreNames := [itemsName] }

/-- A schema entry with an index, as in the README example. -/
def keyStoreSchema : SchemaEntry :=
  { create := { name := itemsName, options := { autoIncrement := true } }
    index := some { name := "myIndex", property := "property", unique := false } }

/-- A schema entry without an index. -/
def usersSchema : SchemaEntry :=
  { create := { name := usersName, options := { autoIncrement := false } }
    index := none }

/-- A two-entry schema. -/
def demoSchemas : List SchemaEntry := [keyStoreSchema, usersSchema]

end Demo

open IdbModel

/-! Helper lemmas about the engine primitives. -/

theorem getVal_put_self {α : Type} (k : Key) (v : α) (data : StoreData α) :
    getVal k (put k v data) = some v := by
  induction data with
  | nil => simp [put, getVal]
  | cons e rest ih =>
    by_cases h1 : k < e.1
    · simp [put, h1, getVal]
    · by_cases h2 : k = e.1
      · simp [put, h1, h2, getVal]
      · simp [put, h1, h2, getVal, ih]

theorem assocGet_assocSet_self {β : Type} (n : String) (b : β)
    (l : List (String × β)) :
    assocGet n (assocSet n b l) = some b := by
  induction l with
  | nil => simp [assocSet, assocGet]
  | cons e rest ih =>
    by_cases h : e.1 = n
    · simp [assocSet, assocGet, h]
    · simp [assocSet, assocGet, h, ih]

theorem assocGet_assocSet_other {β : Type} (n m : String) (b : β)
    (l : List (String × β)) (hnm : m ≠ n) :
    assocGet m (assocSet n b l) = assocGet m l := by
  induction l with
  | nil => simp [assocSet, assocGet, hnm.symm]
  | cons e rest ih =>
    by_cases h : e.1 = n
    · have hm : e.1 ≠ m := by rw [h]; exact hnm.symm
      simp [assocSet, assocGet, h, hnm.symm, hm]
    · by_cases hm : e.1 = m
      · simp [assocSet, assocGet, h, hm, hnm]
      · simp [assocSet, assocGet, h, hm, ih]

theorem storeData_withStoreData_self {α : Type} (db : IdbStore.IdbDatabase α)
    (n : String) (d : StoreData α) :
    (db.withStoreData n d).storeData n = d := by
  simp [IdbStore.IdbDatabase.withStoreData, IdbStore.IdbDatabase.storeData,
    assocGet_assocSet_self]

/-- C1: on an open connection, set(v, k) followed by get(k) on the same
collection accessor resolves with a value equal to v, and set overwrites
unconditionally: after two sets on the same key, get returns the second
value (last-write-wins). -/
theorem C1_set_then_get {α : Type} (s : IdbStore.Store)
    (db : IdbStore.IdbDatabase α) (v v1 v2 : α) (k : Key) :
    IdbStore.Store.get s (IdbStore.Store.set s db v k) k = some v ∧
    IdbStore.Store.get s
        (IdbStore.Store.set s (IdbStore.Store.set s db v1 k) v2 k) k = some v2 := by
  constructor
  · simp [IdbStore.Store.get, IdbStore.Store.set, storeData_withStoreData_self,
      getVal_put_self]
  · simp [IdbStore.Store.get, IdbStore.Store.set, storeData_withStoreData_self,
      getVal_put_self]

/-- C2 counterexample: on a manager whose connection is not open (dbPromise
null), DB.transaction throws a TypeError synchronously and does not return a
promise rejected with the connection-not-open error, refuting the claim for
the transaction operation. -/
theorem C2_transaction_throws_cex :
    StoreRepositoryFile.DB.transaction (StoreRepositoryFile.DB.new Demo.myDBName 1)
        [Demo.itemsName] StoreRepositoryFile.TxMode.readonly
      = JSResult.thrown { message := "TypeError: cannot read property then of null" } ∧
    ∀ e : JSErr,
      StoreRepositoryFile.DB.transaction (StoreRepositoryFile.DB.new Demo.myDBName 1)
          [Demo.itemsName] StoreRepositoryFile.TxMode.readonly
        ≠ JSResult.rejected e := by
  constructor
  · rfl
  · intro e h
    simp [StoreRepositoryFile.DB.transaction, StoreRepositoryFile.DB.new] at h

/-- C2 amended: on a manager whose connection is not open (before open has
been called, or after close has invalidated the handle), the identity
getters name, version and objectStoreNames, the close method and the four
event subscription methods each return a promise rejected with the distinct
connection-not-open error, never throwing and never resolving with a value;
transaction alone, lacking the guard, throws a TypeError synchronously.  A
freshly constructed manager is not open, and close on an open manager nulls
the handle back to the not-open state. -/
theorem C2_not_open_behaviour (db : StoreRepositoryFile.DB)
    (h : db.dbPromise = none) :
    StoreRepositoryFile.DB.name db = StoreRepositoryFile.connectionError ∧
    StoreRepositoryFile.DB.version db = StoreRepositoryFile.connectionError ∧
    StoreRepositoryFile.DB.objectStoreNames db = StoreRepositoryFile.connectionError ∧
    (StoreRepositoryFile.DB.close db).1 = StoreRepositoryFile.connectionError ∧
    StoreRepositoryFile.DB.onversionchange db = StoreRepositoryFile.connectionError ∧
    StoreRepositoryFile.DB.onclose db = StoreRepositoryFile.connectionError ∧
    StoreRepositoryFile.DB.onerror db = StoreRepositoryFile.connectionError ∧
    StoreRepositoryFile.DB.onabort db = StoreRepositoryFile.connectionError ∧
    (∀ ns m, StoreRepositoryFile.DB.transaction db ns m
        = JSResult.thrown { message := "TypeError: cannot read property then of null" }) ∧
    (∀ n v, (StoreRepositoryFile.DB.new n v).dbPromise = none) ∧
    (∀ db2 : StoreRepositoryFile.DB, ∀ c, db2.dbPromise = some c →
        ((StoreRepositoryFile.DB.close db2).2).dbPromise = none) := by
  refine ⟨?_, ?_, ?_, ?_, ?_, ?_, ?_, ?_, ?_, ?_, ?_⟩
  · simp [StoreRepositoryFile.DB.name, h]
  · simp [StoreRepositoryFile.DB.version, h]
  · simp [StoreRepositoryFile.DB.objectStoreNames, h]
  · simp [StoreRepositoryFile.DB.close, h]
  · simp [StoreRepositoryFile.DB.onversionchange, h]
  · simp [StoreRepositoryFile.DB.onclose, h]
  · simp [StoreRepositoryFile.DB.onerror, h]
  · simp [StoreRepositoryFile.DB.onabort, h]
  · intro ns m
    simp [StoreRepositoryFile.DB.transaction, h]
  · intro n v
    rfl
  · intro db2 c hc
    simp [StoreRepositoryFile.DB.close, hc]

/-- C2 witness: the amended behaviour evaluated on a freshly constructed
manager, which is not open. -/
theorem C2_not_open_behaviour_witness :
    (StoreRepositoryFile.DB.new Demo.myDBName 1).dbPromise = none ∧
    StoreRepositoryFile.DB.name (StoreRepositoryFile.DB.new Demo.myDBName 1)
      = StoreRepositoryFile.connectionError ∧
    StoreRepositoryFile.DB.onabort (StoreRepositoryFile.DB.new Demo.myDBName 1)
      = StoreRepositoryFile.connectionError :=
  ⟨rfl,
   (C2_not_open_behaviour (StoreRepositoryFile.DB.new Demo.myDBName 1) rfl).1,
   (C2_not_open_behaviour (StoreRepositoryFile.DB.new Demo.myDBName 1)
      rfl).2.2.2.2.2.2.2.1⟩

/-- C3 counterexample: with a fresh engine world, calling open twice through
the same manager yields two distinct connection promises and performs two
underlying opens, refuting the claim that a second open returns the same
promise rather than opening a second underlying connection. -/
theorem C3_open_twice_cex :
    (StoreRepositoryFile.DB.open
        (StoreRepositoryFile.DB.open (StoreRepositoryFile.DB.new Demo.myDBName 1)
            Demo.demoWorld).1
        (StoreRepositoryFile.DB.open (StoreRepositoryFile.DB.new Demo.myDBName 1)
            Demo.demoWorld).2.2).2.1
      ≠ (StoreRepositoryFile.DB.open (StoreRepositoryFile.DB.new Demo.myDBName 1)
          Demo.demoWorld).2.1 ∧
    (StoreRepositoryFile.DB.open
        (StoreRepositoryFile.DB.open (StoreRepositoryFile.DB.new Demo.myDBName 1)
            Demo.demoWorld).1
        (StoreRepositoryFile.DB.open (StoreRepositoryFile.DB.new Demo.myDBName 1)
            Demo.demoWorld).2.2).2.2.opensPerformed = 2 := by
  constructor
  · decide
  · rfl

/-- C3 amended: every call to open, including the re-entry performed by each
accessor through getConnection, performs exactly one fresh underlying open
and replaces the stored promise; the manager's dbPromise field therefore
holds exactly the most recently created promise, and a repeated open yields
a distinct promise rather than the same one. -/
theorem C3_open_not_idempotent (db : StoreRepositoryFile.DB)
    (w : StoreRepositoryFile.IdbWorld)
    (repo : StoreRepositoryFile.StoreRepository) :
    ((StoreRepositoryFile.DB.open db w).2.2).opensPerformed = w.opensPerformed + 1 ∧
    (StoreRepositoryFile.DB.open db w).1.dbPromise
      = some (StoreRepositoryFile.DB.open db w).2.1 ∧
    (StoreRepositoryFile.DB.open db w).2.1.id = w.opensPerformed ∧
    StoreRepositoryFile.StoreRepository.getConnection repo db w
      = StoreRepositoryFile.DB.open db w ∧
    (StoreRepositoryFile.DB.open (StoreRepositoryFile.DB.open db w).1
        (StoreRepositoryFile.DB.open db w).2.2).2.1
      ≠ (StoreRepositoryFile.DB.open db w).2.1 := by
  refine ⟨rfl, rfl, rfl, rfl, ?_⟩
  intro hEq
  have hid := congrArg StoreRepositoryFile.ConnPromise.id hEq
  simp [StoreRepositoryFile.DB.open, StoreRepositoryFile.idbOpen] at hid

open IdbStore StoreRepositoryFile Part001 Demo in
/-- C4 counterexample: on a run whose single get request succeeded with 42
but whose transaction aborted, the promise returned by Store.get resolves
successfully with 42 and settles when the request completes, not when the
transaction settles; Store.count behaves the same way.  This refutes the
claim that every accessor promise settles only after its transaction and
rejects on abort. -/
theorem C4_get_ignores_tx_cex :
    IdbStore.Store.getPromise
        { requestResult := Except.ok 42, txResult := Except.error Demo.abortErr }
      = { outcome := Except.ok (42 : Nat), settleTime := IdbStore.SettleTime.atRequest } ∧
    (IdbStore.Store.countPromise
        { requestResult := Except.ok 7, txResult := Except.error Demo.abortErr }).outcome
      = Except.ok 7 :=
  ⟨rfl, rfl⟩

/-- C4 amended: the accessor methods that return tx.complete or a then-chain
of it, namely set, delete, clear, getAllKeys and getAll, settle only when
the transaction settles, reject with the abort error when the transaction
aborted and resolve with their materialized result when it committed; get
and count, which return the bare request promise, settle when the request
completes and carry the request result regardless of the transaction
outcome. -/
theorem C4_promise_settlement {α : Type} (keys : List α) (run : IdbStore.TxRun Unit)
    (runA : IdbStore.TxRun α) (runN : IdbStore.TxRun Nat) :
    ((IdbStore.Store.setPromise run).settleTime = IdbStore.SettleTime.atTxSettle ∧
     (IdbStore.Store.deletePromise run).settleTime = IdbStore.SettleTime.atTxSettle ∧
     (IdbStore.Store.clearPromise run).settleTime = IdbStore.SettleTime.atTxSettle ∧
     (IdbStore.Store.getAllKeysPromise keys run).settleTime = IdbStore.SettleTime.atTxSettle ∧
     (IdbStore.Store.getAllPromise keys run).settleTime = IdbStore.SettleTime.atTxSettle) ∧
    (∀ e, run.txResult = Except.error e →
      (IdbStore.Store.setPromise run).outcome = Except.error e ∧
      (IdbStore.Store.deletePromise run).outcome = Except.error e ∧
      (IdbStore.Store.clearPromise run).outcome = Except.error e ∧
      (IdbStore.Store.getAllKeysPromise keys run).outcome = Except.error e ∧
      (IdbStore.Store.getAllPromise keys run).outcome = Except.error e) ∧
    (run.txResult = Except.ok () →
      (IdbStore.Store.getAllKeysPromise keys run).outcome = Except.ok keys ∧
      (IdbStore.Store.getAllPromise keys run).outcome = Except.ok keys) ∧
    ((IdbStore.Store.getPromise runA).settleTime = IdbStore.SettleTime.atRequest ∧
     (IdbStore.Store.getPromise runA).outcome = runA.requestResult ∧
     (IdbStore.Store.countPromise runN).settleTime = IdbStore.SettleTime.atRequest ∧
     (IdbStore.Store.countPromise runN).outcome = runN.requestResult) := by
  refine ⟨⟨rfl, rfl, rfl, rfl, rfl⟩, ?_, ?_, ⟨rfl, rfl, rfl, rfl⟩⟩
  · intro e he
    refine ⟨?_, ?_, ?_, ?_, ?_⟩ <;>
      simp [IdbStore.Store.setPromise, IdbStore.Store.deletePromise,
        IdbStore.Store.clearPromise, IdbStore.Store.getAllKeysPromise,
        IdbStore.Store.getAllPromise, he, Except.map]
  · intro hok
    constructor <;>
      simp [IdbStore.Store.getAllKeysPromise, IdbStore.Store.getAllPromise, hok,
        Except.map]

/-- C4 witness: the amended settlement behaviour evaluated on a concrete
aborted run and on a concrete committed run. -/
theorem C4_promise_settlement_witness :
    (IdbStore.Store.setPromise
        { requestResult := Except.ok (), txResult := Except.error Demo.abortErr }).outcome
      = Except.error Demo.abortErr ∧
    (IdbStore.Store.getAllPromise [1, 2]
        { requestResult := Except.ok (), txResult := Except.ok () }).outcome
      = Except.ok [1, 2] :=
  ⟨((C4_promise_settlement ([1, 2] : List Nat)
      { requestResult := Except.ok (), txResult := Except.error Demo.abortErr }
      { requestResult := Except.ok 0, txResult := Except.ok () }
      { requestResult := Except.ok 0, txResult := Except.ok () }).2.1
        Demo.abortErr rfl).1,
   ((C4_promise_settlement ([1, 2] : List Nat)
      { requestResult := Except.ok (), txResult := Except.ok () }
      { requestResult := Except.ok 0, txResult := Except.ok () }
      { requestResult := Except.ok 0, txResult := Except.ok () }).2.2.1 rfl).2⟩

theorem cursorCollect_eq {α : Type} (acc : List Key) (data : StoreData α) :
    cursorCollect acc data = acc ++ data.map Prod.fst := by
  induction data generalizing acc with
  | nil => simp [cursorCollect]
  | cons e rest ih => simp [cursorCollect, ih]

/-- C6 counterexample: on a store holding keys 1, 2 and 3, with the query
range of keys at least 2 and limit 1, the claim requires a result of length
at most 1 restricted to the range, but getAllKeys returns all three keys,
including key 1 which is outside the range. -/
theorem C6_getAllKeys_ignores_query_cex :
    IdbStore.Store.getAllKeys Demo.itemsStore Demo.demoDb (some Demo.geTwo) (some 1)
      = [1, 2, 3] ∧
    ¬ (IdbStore.Store.getAllKeys Demo.itemsStore Demo.demoDb (some Demo.geTwo)
        (some 1)).length ≤ 1 ∧
    inQuery (some Demo.geTwo) 1 = false := by
  refine ⟨by decide, by decide, by decide⟩

/-- C6 amended: on a store sorted ascending by key, getAll respects the
optional range and limit — its result lists the values of the selected
entries, whose keys are ascending, all lie in the range, and whose number is
at most the limit — while getAllKeys, whose implementation opens its key
cursor without the range and never consults the limit, returns the keys of
every record, in ascending order, ignoring both optional arguments. -/
theorem C6_getAll_ordered_limited {α : Type} (s : IdbStore.Store)
    (db : IdbStore.IdbDatabase α) (q : Option KeyRange) (l : Option Nat)
    (hs : sortedByKey (db.storeData s.storeKey)) :
    IdbStore.Store.getAllKeys s db q l = (db.storeData s.storeKey).map Prod.fst ∧
    List.Pairwise (fun a b => a < b) (IdbStore.Store.getAllKeys s db q l) ∧
    IdbStore.Store.getAll s db q l
      = (engineGetAllEntries q l (db.storeData s.storeKey)).map Prod.snd ∧
    (∀ n, l = some n → (IdbStore.Store.getAll s db q l).length ≤ n) ∧
    List.Pairwise (fun a b => a < b)
      ((engineGetAllEntries q l (db.storeData s.storeKey)).map Prod.fst) ∧
    (∀ e ∈ engineGetAllEntries q l (db.storeData s.storeKey), inQuery q e.1 = true) := by
  have hsub : List.Sublist (engineGetAllEntries q l (db.storeData s.storeKey))
      (db.storeData s.storeKey) := by
    unfold engineGetAllEntries takeLimit
    match l with
    | none => exact List.filter_sublist _
    | some n =>
      exact List.Sublist.trans (List.take_sublist n _) (List.filter_sublist _)
  refine ⟨?_, ?_, rfl, ?_, ?_, ?_⟩
  · simp [IdbStore.Store.getAllKeys, cursorCollect_eq]
  · rw [show IdbStore.Store.getAllKeys s db q l
        = (db.storeData s.storeKey).map Prod.fst by
      simp [IdbStore.Store.getAllKeys, cursorCollect_eq]]
    rw [List.pairwise_map]
    exact hs
  · intro n hn
    subst hn
    have : IdbStore.Store.getAll s db q (some n)
        = ((rangeFilter q (db.storeData s.storeKey)).take n).map Prod.snd := rfl
    rw [this, List.length_map, List.length_take]
    exact min_le_left _ _
  · rw [List.pairwise_map]
    exact List.Pairwise.sublist hsub hs
  · intro e he
    have hef : e ∈ rangeFilter q (db.storeData s.storeKey) := by
      unfold engineGetAllEntries takeLimit at he
      match l with
      | none => exact he
      | some n => exact (List.take_sublist n _).subset he
    exact (List.mem_filter.mp hef).2

/-- C6 witness: the amended statement evaluated on the concrete sorted
store with keys 1, 2 and 3. -/
theorem C6_getAll_ordered_limited_witness :
    sortedByKey (Demo.demoDb.storeData Demo.itemsStore.storeKey) ∧
    (∀ n, (some 2 : Option Nat) = some n →
      (IdbStore.Store.getAll Demo.itemsStore Demo.demoDb (some Demo.geTwo)
        (some 2)).length ≤ n) :=
  ⟨by decide,
   (C6_getAll_ordered_limited Demo.itemsStore Demo.demoDb (some Demo.geTwo) (some 2)
      (by decide)).2.2.2.1⟩

/-- C7 counterexample: StoreRepository.get of src/store-repository.js has no
catch clause, so an underlying failure with message boom is re-rejected
verbatim, and its message is not of the form of the get text followed by a
remainder — the promise carries no method-specific message at all. -/
theorem C7_no_wrapping_cex :
    StoreRepositoryFile.StoreRepository.getOutcome
        (Except.error Demo.boomErr : Except JSErr Nat)
      = Except.error Demo.boomErr ∧
    ∀ rest : String, Demo.boomErr.message ≠ Part001.getPfx ++ rest := by
  constructor
  · rfl
  · intro rest h
    have hlen := congrArg String.length h
    rw [String.length_append] at hlen
    have h4 : Demo.boomErr.message.length = 4 := by decide
    have h28 : Part001.getPfx.length = 28 := by decide
    omega

/-- C7 amended: in the Store revisions of src/unnamed/part_001, each of the
seven accessor methods catches a failure and re-rejects it with its own
method-specific text prepended to the underlying message, the seven texts
are pairwise distinct, successes pass through untouched; the StoreRepository
accessor of src/store-repository.js, by contrast, re-rejects the underlying
error unchanged. -/
theorem C7_part001_wrapping {α : Type} (e : JSErr) (v : α) :
    Part001.Store.getOutcome (Except.error e : Except JSErr α)
      = Except.error { message := Part001.getPfx ++ e.message } ∧
    Part001.Store.setOutcome (Except.error e : Except JSErr α)
      = Except.error { message := Part001.setPfx ++ e.message } ∧
    Part001.Store.deleteOutcome (Except.error e : Except JSErr α)
      = Except.error { message := Part001.deletePfx ++ e.message } ∧
    Part001.Store.clearOutcome (Except.error e : Except JSErr α)
      = Except.error { message := Part001.clearPfx ++ e.message } ∧
    Part001.Store.getAllKeysOutcome (Except.error e : Except JSErr α)
      = Except.error { message := Part001.getAllKeysPfx ++ e.message } ∧
    Part001.Store.getAllOutcome (Except.error e : Except JSErr α)
      = Except.error { message := Part001.getAllPfx ++ e.message } ∧
    Part001.Store.countOutcome (Except.error e : Except JSErr α)
      = Except.error { message := Part001.countPfx ++ e.message } ∧
    Part001.Store.getOutcome (Except.ok v : Except JSErr α) = Except.ok v ∧
    Part001.methodPfxs.Nodup ∧
    (∀ r : Except JSErr α, StoreRepositoryFile.StoreRepository.getOutcome r = r) := by
  refine ⟨rfl, rfl, rfl, rfl, rfl, rfl, rfl, rfl, by decide, fun r => rfl⟩

/-- C9 counterexample: in a host environment with no window global at all —
one that lacks the storage capability — the probe throws a ReferenceError
instead of returning false, refuting the claim that it never throws for any
host environment. -/
theorem C9_no_window_throws_cex :
    IdbStore.hasSupport { hasWindowGlobal := false, indexedDBInWindow := false }
      = { result := IdbStore.ProbeResult.thrown IdbStore.windowRefError
          warnings := [] } ∧
    ∀ b, (IdbStore.hasSupport
        { hasWindowGlobal := false, indexedDBInWindow := false }).result
      ≠ IdbStore.ProbeResult.returned b := by
  constructor
  · rfl
  · intro b h
    simp [IdbStore.hasSupport] at h

/-- C9 amended: in every host environment that has a window global, the
probe is synchronous and never throws — it returns a boolean — and it
returns false after emitting exactly one non-fatal diagnostic when window
lacks indexedDB, and true with no diagnostic otherwise; in a host without a
window global it instead throws a ReferenceError. -/
theorem C9_hasSupport_with_window (env : IdbStore.HostEnv)
    (h : env.hasWindowGlobal = true) :
    (∃ b, (IdbStore.hasSupport env).result = IdbStore.ProbeResult.returned b) ∧
    (env.indexedDBInWindow = false →
      IdbStore.hasSupport env
        = { result := IdbStore.ProbeResult.returned false
            warnings := [IdbStore.noSupportWarning] }) ∧
    (env.indexedDBInWindow = true →
      IdbStore.hasSupport env
        = { result := IdbStore.ProbeResult.returned true, warnings := [] }) ∧
    (∀ env2 : IdbStore.HostEnv, env2.hasWindowGlobal = false →
      (IdbStore.hasSupport env2).result
        = IdbStore.ProbeResult.thrown IdbStore.windowRefError) := by
  refine ⟨?_, ?_, ?_, ?_⟩
  · by_cases hi : env.indexedDBInWindow
    · exact ⟨true, by simp [IdbStore.hasSupport, h, hi]⟩
    · exact ⟨false, by simp [IdbStore.hasSupport, h, hi]⟩
  · intro hi
    simp [IdbStore.hasSupport, h, hi]
  · intro hi
    simp [IdbStore.hasSupport, h, hi]
  · intro env2 h2
    simp [IdbStore.hasSupport, h2]

/-- C9 witness: the amended probe behaviour evaluated in a host that has a
window global without indexedDB. -/
theorem C9_hasSupport_with_window_witness :
    ({ hasWindowGlobal := true, indexedDBInWindow := false } :
        IdbStore.HostEnv).hasWindowGlobal = true ∧
    (∃ b, (IdbStore.hasSupport
        { hasWindowGlobal := true, indexedDBInWindow := false }).result
      = IdbStore.ProbeResult.returned b) :=
  ⟨rfl,
   (C9_hasSupport_with_window
      { hasWindowGlobal := true, indexedDBInWindow := false } rfl).1⟩

theorem attachStores_not_mem (names : List String)
    (props : List (String × IdbStore.StoreProp)) (n : String) (h : n ∉ names) :
    assocGet n (IdbStore.attachStores names props) = assocGet n props := by
  induction names generalizing props with
  | nil => rfl
  | cons m rest ih =>
    have hm : n ≠ m := fun he => h (by simp [he])
    have hr : n ∉ rest := fun he => h (by simp [he])
    rw [show IdbStore.attachStores (m :: rest) props
        = IdbStore.attachStores rest (assocSet m ⟨m⟩ props) from rfl]
    rw [ih (assocSet m ⟨m⟩ props) hr]
    exact assocGet_assocSet_other m n ⟨m⟩ props hm

theorem attachStores_mem (names : List String)
    (props : List (String × IdbStore.StoreProp)) (n : String) (h : n ∈ names) :
    assocGet n (IdbStore.attachStores names props) = some { storeKey := n } := by
  induction names generalizing props with
  | nil => cases h
  | cons m rest ih =>
    rw [show IdbStore.attachStores (m :: rest) props
        = IdbStore.attachStores rest (assocSet m ⟨m⟩ props) from rfl]
    by_cases hr : n ∈ rest
    · exact ih (assocSet m ⟨m⟩ props) hr
    · have hm : n = m := by
        rcases List.mem_cons.mp h with he | he
        · exact he
        · exact absurd he hr
      subst hm
      rw [attachStores_not_mem rest (assocSet n ⟨n⟩ props) n hr]
      exact assocGet_assocSet_self n ⟨n⟩ props

/-- C8: after the connection promise made by DB.open resolves, the manager
carries one named accessor property per object store of the open database:
every name in the connection's store-name set is bound to a Store accessor
for exactly that name. -/
theorem C8_accessor_property_per_store {α : Type} (db : IdbStore.IdbDatabase α)
    (n : String) (h : n ∈ db.objectStoreNames) :
    assocGet n (IdbStore.openProps db) = some { storeKey := n } :=
  attachStores_mem db.objectStoreNames [] n h

/-- C8 witness: the property map evaluated on the concrete open database
with the items store. -/
theorem C8_accessor_property_per_store_witness :
    Demo.itemsName ∈ Demo.demoDb.objectStoreNames ∧
    assocGet Demo.itemsName (IdbStore.openProps Demo.demoDb)
      = some { storeKey := Demo.itemsName } :=
  ⟨by decide, C8_accessor_property_per_store Demo.demoDb Demo.itemsName (by decide)⟩

theorem notMem_settled_applyFires (fs : List IdbStore.EventKind)
    (s : IdbStore.EventState) (tid : Nat) (h1 : tid ∉ s.settled)
    (h2 : ∀ k0 id, s.handler k0 = some id → id ≠ tid) :
    tid ∉ (IdbStore.applyFires fs s).settled := by
  induction fs generalizing s with
  | nil => simpa [IdbStore.applyFires] using h1
  | cons f rest ih =>
    rw [show IdbStore.applyFires (f :: rest) s
        = IdbStore.applyFires rest (IdbStore.fireEvent f s) from rfl]
    apply ih (IdbStore.fireEvent f s)
    · unfold IdbStore.fireEvent
      cases hf : s.handler f with
      | none => simpa using h1
      | some id =>
        simp only [List.mem_cons, not_or]
        exact ⟨fun he => (h2 f id hf) he.symm, h1⟩
    · intro k0 id hk
      apply h2 k0 id
      unfold IdbStore.fireEvent at hk
      cases hf : s.handler f with
      | none => rw [hf] at hk; exact hk
      | some j => rw [hf] at hk; exact hk

/-- C10: for any event kind, calling the subscription method a second time
installs the second promise's resolver as the single handler for that kind,
replacing the first: afterwards the handler slot holds only the second
promise, the two promises are distinct, and however many events of whatever
kinds subsequently fire, the promise returned by the superseded first call
never settles. -/
theorem C10_resubscribe_replaces_handler (st : IdbStore.EventState)
    (k : IdbStore.EventKind) (hwf : st.wf) :
    (IdbStore.subscribeEvent k (IdbStore.subscribeEvent k st).1).1.handler k
      = some (IdbStore.subscribeEvent k (IdbStore.subscribeEvent k st).1).2 ∧
    (IdbStore.subscribeEvent k st).2
      ≠ (IdbStore.subscribeEvent k (IdbStore.subscribeEvent k st).1).2 ∧
    ∀ fs, (IdbStore.subscribeEvent k st).2
      ∉ (IdbStore.applyFires fs
          (IdbStore.subscribeEvent k (IdbStore.subscribeEvent k st).1).1).settled := by
  refine ⟨by simp [IdbStore.subscribeEvent], by simp [IdbStore.subscribeEvent], ?_⟩
  intro fs
  apply notMem_settled_applyFires fs _ (IdbStore.subscribeEvent k st).2
  · show st.nextId ∉ st.settled
    intro hmem
    exact absurd (hwf.1 st.nextId hmem) (by omega)
  · intro k0 id hk
    by_cases hkk : k0 = k
    · subst hkk
      simp [IdbStore.subscribeEvent] at hk
      show id ≠ st.nextId
      omega
    · simp [IdbStore.subscribeEvent, hkk] at hk
      have := hwf.2 k0 id hk
      show id ≠ st.nextId
      omega

/-- C10 witness: the replacement behaviour evaluated from a freshly opened
connection, subscribing twice to versionchange and firing the event once. -/
theorem C10_resubscribe_replaces_handler_witness :
    IdbStore.EventState.wf IdbStore.EventState.initial ∧
    (IdbStore.subscribeEvent IdbStore.EventKind.versionchange
        (IdbStore.subscribeEvent IdbStore.EventKind.versionchange
          IdbStore.EventState.initial).1).1.handler IdbStore.EventKind.versionchange
      = some 1 ∧
    (0 : Nat) ∉ (IdbStore.applyFires [IdbStore.EventKind.versionchange]
        (IdbStore.subscribeEvent IdbStore.EventKind.versionchange
          (IdbStore.subscribeEvent IdbStore.EventKind.versionchange
            IdbStore.EventState.initial).1).1).settled := by
  have hwf : IdbStore.EventState.wf IdbStore.EventState.initial := by
    constructor
    · intro id hid
      simp [IdbStore.EventState.initial] at hid
    · intro k id h
      simp [IdbStore.EventState.initial] at h
  refine ⟨hwf, ?_, ?_⟩
  · exact (C10_resubscribe_replaces_handler IdbStore.EventState.initial
      IdbStore.EventKind.versionchange hwf).1
  · exact (C10_resubscribe_replaces_handler IdbStore.EventState.initial
      IdbStore.EventKind.versionchange hwf).2.2 [IdbStore.EventKind.versionchange]

theorem upgradeStep_cases {α : Type} (db : List (IdbStore.CreatedStore α))
    (sc : IdbStore.SchemaEntry) :
    (IdbStore.containsStore db sc.create.name = true ∧
      IdbStore.upgradeStep db sc = db) ∨
    (IdbStore.containsStore db sc.create.name = false ∧
      IdbStore.upgradeStep db sc
        = db ++ [{ name := sc.create.name
                   options := sc.create.options
                   indexes := match sc.index with | some idx => [idx] | none => []
                   data := [] }]) := by
  by_cases h : IdbStore.containsStore db sc.create.name
  · exact Or.inl ⟨h, by simp [IdbStore.upgradeStep, h]⟩
  · exact Or.inr ⟨by simpa using h, by simp [IdbStore.upgradeStep, h]⟩

theorem foldl_upgrade_prefix {α : Type} (schemas : List IdbStore.SchemaEntry)
    (db : List (IdbStore.CreatedStore α)) :
    ∃ ext, schemas.foldl IdbStore.upgradeStep db = db ++ ext := by
  induction schemas generalizing db with
  | nil => exact ⟨[], by simp⟩
  | cons sc rest ih =>
    rcases ih (IdbStore.upgradeStep db sc) with ⟨ext, hext⟩
    rcases upgradeStep_cases db sc with ⟨_, he⟩ | ⟨_, he⟩
    · exact ⟨ext, by rw [List.foldl_cons, hext, he]⟩
    · refine ⟨[{ name := sc.create.name
                 options := sc.create.options
                 indexes := match sc.index with | some idx => [idx] | none => []
                 data := [] }] ++ ext, ?_⟩
      rw [List.foldl_cons, hext, he, List.append_assoc]

theorem containsStore_append {α : Type} (a b : List (IdbStore.CreatedStore α))
    (n : String) :
    IdbStore.containsStore (a ++ b) n
      = (IdbStore.containsStore a n || IdbStore.containsStore b n) := by
  simp [IdbStore.containsStore, List.any_append]

theorem containsStore_mono_step {α : Type} (db : List (IdbStore.CreatedStore α))
    (sc : IdbStore.SchemaEntry) (n : String)
    (h : IdbStore.containsStore db n = true) :
    IdbStore.containsStore (IdbStore.upgradeStep db sc) n = true := by
  rcases upgradeStep_cases db sc with ⟨_, he⟩ | ⟨_, he⟩
  · rw [he]; exact h
  · rw [he, containsStore_append]; simp [h]

theorem containsStore_mono_foldl {α : Type} (schemas : List IdbStore.SchemaEntry)
    (n : String) :
    ∀ db : List (IdbStore.CreatedStore α), IdbStore.containsStore db n = true →
      IdbStore.containsStore (schemas.foldl IdbStore.upgradeStep db) n = true := by
  induction schemas with
  | nil => intro db h; exact h
  | cons sc rest ih =>
    intro db h
    rw [List.foldl_cons]
    exact ih _ (containsStore_mono_step db sc n h)

theorem containsStore_after_step_self {α : Type}
    (db : List (IdbStore.CreatedStore α)) (sc : IdbStore.SchemaEntry) :
    IdbStore.containsStore (IdbStore.upgradeStep db sc) sc.create.name = true := by
  rcases upgradeStep_cases db sc with ⟨hc, he⟩ | ⟨_, he⟩
  · rw [he]; exact hc
  · rw [he, containsStore_append]
    simp [IdbStore.containsStore]

theorem contains_foldl_of_mem {α : Type} (schemas : List IdbStore.SchemaEntry)
    (sc : IdbStore.SchemaEntry) :
    sc ∈ schemas →
    ∀ db : List (IdbStore.CreatedStore α),
      IdbStore.containsStore (schemas.foldl IdbStore.upgradeStep db)
        sc.create.name = true := by
  induction schemas with
  | nil => intro h; cases h
  | cons hd rest ih =>
    intro hmem db
    rw [List.foldl_cons]
    rcases List.mem_cons.mp hmem with heq | hmem2
    · subst heq
      exact containsStore_mono_foldl rest sc.create.name _
        (containsStore_after_step_self db sc)
    · exact ih hmem2 _

theorem containsStore_iff_mem {α : Type} (db : List (IdbStore.CreatedStore α))
    (n : String) :
    IdbStore.containsStore db n = true ↔ n ∈ db.map IdbStore.CreatedStore.name := by
  unfold IdbStore.containsStore
  constructor
  · intro h
    rcases List.any_eq_true.mp h with ⟨st, hst, hbeq⟩
    exact List.mem_map.mpr ⟨st, hst, beq_iff_eq.mp hbeq⟩
  · intro h
    rcases List.mem_map.mp h with ⟨st, hst, hname⟩
    exact List.any_eq_true.mpr ⟨st, hst, beq_iff_eq.mpr hname⟩

theorem nodup_names_step {α : Type} (db : List (IdbStore.CreatedStore α))
    (sc : IdbStore.SchemaEntry)
    (h : (db.map IdbStore.CreatedStore.name).Nodup) :
    ((IdbStore.upgradeStep db sc).map IdbStore.CreatedStore.name).Nodup := by
  rcases upgradeStep_cases db sc with ⟨_, he⟩ | ⟨hc, he⟩
  · rw [he]; exact h
  · rw [he, List.map_append, List.nodup_append]
    refine ⟨h, List.nodup_singleton _, ?_⟩
    intro a ha hb
    simp at hb
    subst hb
    exact absurd ((containsStore_iff_mem db _).mpr ha) (by simp [hc])

theorem nodup_names_foldl {α : Type} (schemas : List IdbStore.SchemaEntry) :
    ∀ db : List (IdbStore.CreatedStore α),
      (db.map IdbStore.CreatedStore.name).Nodup →
      ((schemas.foldl IdbStore.upgradeStep db).map IdbStore.CreatedStore.name).Nodup := by
  induction schemas with
  | nil => intro db h; exact h
  | cons sc rest ih =>
    intro db h
    rw [List.foldl_cons]
    exact ih _ (nodup_names_step db sc h)

theorem foldl_skip_all {α : Type} (schemas : List IdbStore.SchemaEntry) :
    ∀ db : List (IdbStore.CreatedStore α),
      (∀ sc ∈ schemas, IdbStore.containsStore db sc.create.name = true) →
      schemas.foldl IdbStore.upgradeStep db = db := by
  induction schemas with
  | nil => intro db _; rfl
  | cons hd rest ih =>
    intro db h
    have hstep : IdbStore.upgradeStep db hd = db := by
      rcases upgradeStep_cases db hd with ⟨_, he⟩ | ⟨hc, _⟩
      · exact he
      · exact absurd (h hd (by simp)) (by simp [hc])
    rw [List.foldl_cons, hstep]
    exact ih db (fun sc hsc => h sc (by simp [hsc]))

theorem created_store_attrs {α : Type} (schemas : List IdbStore.SchemaEntry)
    (sc : IdbStore.SchemaEntry) :
    (schemas.map (fun s => s.create.name)).Nodup →
    sc ∈ schemas →
    ∀ db : List (IdbStore.CreatedStore α),
      IdbStore.containsStore db sc.create.name = false →
      ∃ st ∈ schemas.foldl IdbStore.upgradeStep db,
        st.name = sc.create.name ∧ st.options = sc.create.options ∧
        st.indexes = (match sc.index with | some idx => [idx] | none => []) ∧
        st.data = ([] : StoreData α) := by
  induction schemas with
  | nil => intro _ hmem; cases hmem
  | cons hd rest ih =>
    intro hnd hmem db habs
    have hnd2 := hnd
    rw [List.map_cons] at hnd2
    have hhd := (List.nodup_cons.mp hnd2).1
    have htl := (List.nodup_cons.mp hnd2).2
    rw [List.foldl_cons]
    rcases List.mem_cons.mp hmem with heq | hmem2
    · subst heq
      have hstep : IdbStore.upgradeStep db sc
          = db ++ [{ name := sc.create.name
                     options := sc.create.options
                     indexes := match sc.index with | some idx => [idx] | none => []
                     data := [] }] := by
        rcases upgradeStep_cases db sc with ⟨hc, _⟩ | ⟨_, he⟩
        · simp [habs] at hc
        · exact he
      obtain ⟨ext, hext⟩ := foldl_upgrade_prefix rest (IdbStore.upgradeStep db sc)
      refine ⟨{ name := sc.create.name
                options := sc.create.options
                indexes := match sc.index with | some idx => [idx] | none => []
                data := [] }, ?_, rfl, rfl, rfl, rfl⟩
      rw [hext, hstep]
      simp
    · have hne : hd.create.name ≠ sc.create.name := by
        intro he
        apply hhd
        rw [he]
        exact List.mem_map.mpr ⟨sc, hmem2, rfl⟩
      have habs2 : IdbStore.containsStore (IdbStore.upgradeStep db hd)
          sc.create.name = false := by
        rcases upgradeStep_cases db hd with ⟨_, he⟩ | ⟨_, he⟩
        · rw [he]; exact habs
        · rw [he, containsStore_append, habs]
          simp [IdbStore.containsStore, hne]
      exact ih htl hmem2 (IdbStore.upgradeStep db hd) habs2

/-- C5: for every schema, createDatabase creates each collection that is not
already present, with the entry's creation options and, when the entry
specifies one, its secondary index and empty initial data; it skips
collections that already exist, leaving every pre-existing store record
untouched (the existing stores are a prefix of the result); each declared
collection name occurs exactly once in the result; re-invoking
createDatabase on the result changes nothing; and the connection opened by
createDatabase is closed before its promise resolves. -/
theorem C5_createDatabase_creates_absent {α : Type}
    (schemas : List IdbStore.SchemaEntry)
    (existing : List (IdbStore.CreatedStore α))
    (hdb : (existing.map IdbStore.CreatedStore.name).Nodup)
    (hsc : (schemas.map (fun s => s.create.name)).Nodup) :
    (∀ sc ∈ schemas,
      ((IdbStore.createDatabase schemas existing).stores.map
        IdbStore.CreatedStore.name).count sc.create.name = 1) ∧
    (∃ ext, (IdbStore.createDatabase schemas existing).stores = existing ++ ext) ∧
    (∀ sc ∈ schemas, IdbStore.containsStore existing sc.create.name = false →
      ∃ st ∈ (IdbStore.createDatabase schemas existing).stores,
        st.name = sc.create.name ∧ st.options = sc.create.options ∧
        st.indexes = (match sc.index with | some idx => [idx] | none => []) ∧
        st.data = ([] : StoreData α)) ∧
    (IdbStore.createDatabase schemas
        (IdbStore.createDatabase schemas existing).stores).stores
      = (IdbStore.createDatabase schemas existing).stores ∧
    (IdbStore.createDatabase schemas existing).connectionClosed = true := by
  refine ⟨?_, ?_, ?_, ?_, rfl⟩
  · intro sc hmem
    have hmemn : sc.create.name
        ∈ (IdbStore.createDatabase schemas existing).stores.map
            IdbStore.CreatedStore.name :=
      (containsStore_iff_mem _ _).mp (contains_foldl_of_mem schemas sc hmem existing)
    exact List.count_eq_one_of_mem (nodup_names_foldl schemas existing hdb) hmemn
  · exact foldl_upgrade_prefix schemas existing
  · intro sc hmem habs
    exact created_store_attrs schemas sc hsc hmem existing habs
  · exact foldl_skip_all schemas _
      (fun sc hmem => contains_foldl_of_mem schemas sc hmem existing)

/-- C5 witness: createDatabase evaluated on the README schema against an
empty database. -/
theorem C5_createDatabase_creates_absent_witness :
    (([] : List (IdbStore.CreatedStore Nat)).map IdbStore.CreatedStore.name).Nodup ∧
    (Demo.demoSchemas.map (fun s => s.create.name)).Nodup ∧
    (∃ ext, (IdbStore.createDatabase Demo.demoSchemas
        ([] : List (IdbStore.CreatedStore Nat))).stores = [] ++ ext) ∧
    (IdbStore.createDatabase Demo.demoSchemas
        ([] : List (IdbStore.CreatedStore Nat))).connectionClosed = true :=
  ⟨by simp, by decide,
   (C5_createDatabase_creates_absent Demo.demoSchemas [] (by simp) (by decide)).2.1,
   (C5_createDatabase_creates_absent Demo.demoSchemas [] (by simp) (by decide)).2.2.2.2⟩
